import Mathlib

/-!
Verification development for the calour heatmap module
(`calour/heatmap/heatmap.py`): a shallow embedding of the transition
scanner `_transition_index`, the color-bar renderer `_ax_color_bar`,
the axis-decoration logic of `heatmap`, its coordinate-readout
callback `format_coord`, and the sort-and-plot wrapper `plot_sort`,
together with theorems about them.
-/

namespace Calour

/-- Python values as they occur in metadata columns in this module:
strings, ints, bools and `None`.  Mirrors the dynamically typed
elements that `_transition_index` and the label formatting code
receive. -/
inductive PyVal where
  | pyStr (s : String)
  | pyInt (n : Int)
  | pyBool (b : Bool)
  | pyNone
  deriving DecidableEq, Repr

/-- Stringified type of a `PyVal`, as used in `_transition_index`
(`item = str(type(item)), item`).  In Python this is the string
`<class ...>` built from the type name; since that wrapper is the same
for every type, we keep just the type name, which distinguishes the
types exactly as the full string does. -/
def typeTag : PyVal → String
  | .pyStr _ => "str"
  | .pyInt _ => "int"
  | .pyBool _ => "bool"
  | .pyNone => "NoneType"

/-- Python `==` on `PyVal`s.  Note `1 == True` holds in Python
(bool is a subtype of int), which is why `_transition_index` pairs the
value with its stringified type before comparing. -/
def pyEq : PyVal → PyVal → Bool
  | .pyStr a, .pyStr b => a == b
  | .pyInt a, .pyInt b => a == b
  | .pyBool a, .pyBool b => a == b
  | .pyInt a, .pyBool b => a == (if b then 1 else 0)
  | .pyBool a, .pyInt b => (if a then (1 : Int) else 0) == b
  | .pyNone, .pyNone => true
  | _, _ => false

/-- The comparison `_transition_index` actually performs: equality of
the tuples `(str(type(x)), x)`, i.e. the stringified types must agree
and the values must be Python-equal. -/
def scanEq (a b : PyVal) : Bool := typeTag a == typeTag b && pyEq a b

/-- Python `str(x)` for a `PyVal`, as used by
`xticklabels = [str(i) for i in x_val]` and the y-label code. -/
def pyToString : PyVal → String
  | .pyStr s => s
  | .pyInt n => toString n
  | .pyBool b => if b then "True" else "False"
  | .pyNone => "None"

/-- The loop of `_transition_index`, generalized over the element type
and the comparison (the source compares `(str(type(x)), x)` tuples).
`item` is the representative of the current run, `idx` the index of
the next element of `rest` in the original list.  When `item != current`
the generator yields `(i, item[1])` and sets `item = current`; after
the loop it yields `(i + 1, item[1])`. -/
def transitionAux {α : Type} (beq : α → α → Bool) :
    α → Nat → List α → List (Nat × α)
  | item, idx, [] => [(idx, item)]
  | item, idx, current :: rest =>
      if beq item current then
        transitionAux beq item (idx + 1) rest
      else
        (idx, item) :: transitionAux beq current (idx + 1) rest

/-- Function `_transition_index(l)` with comparison `beq`: the list of
`(end_index, value)` transition records.  On the empty list the
generator's initial `next(it)` raises `StopIteration`, which Python
turns into a `RuntimeError` when the generator is iterated, so the
result is `none`. -/
def transition_index {α : Type} (beq : α → α → Bool) :
    List α → Option (List (Nat × α))
  | [] => none
  | x :: xs => some (transitionAux beq x 1 xs)

/-- The scanner `_transition_index` on a metadata column of `PyVal`s,
with the source's `(str(type(x)), x)` comparison. -/
def transitionIndexPy (l : List PyVal) : Option (List (Nat × PyVal)) :=
  transition_index scanEq l

/-- The scanner `_transition_index` on a list of strings (the form
`plot` feeds to `_ax_color_bar`: all elements are strings, so the type
tags always agree and the tuple comparison reduces to string
equality). -/
def transitionIndexStr (l : List String) : Option (List (Nat × String)) :=
  transition_index (· == ·) l

/-- Expand transition records back into a list: each record
`(end_index, v)` contributes `end_index - prev` copies of `v`, `prev`
starting at 0. -/
def expandRuns {α : Type} : Nat → List (Nat × α) → List α
  | _, [] => []
  | prev, (i, v) :: rest => List.replicate (i - prev) v ++ expandRuns i rest

/-! ## Color-bar renderer `_ax_color_bar` -/

/-- Lexicographic strict order on code points, the order numpy uses to
sort an array of strings in `np.unique`. -/
def lexLt : List Char → List Char → Bool
  | [], [] => false
  | [], _ :: _ => true
  | _ :: _, [] => false
  | a :: as, b :: bs =>
      if a.toNat < b.toNat then true
      else if b.toNat < a.toNat then false
      else lexLt as bs

/-- Nondecreasing order on strings derived from `lexLt`. -/
def strLe (s t : String) : Bool := !(lexLt t.data s.data)

/-- Insert a string into a sorted list, keeping it sorted. -/
def sortedInsert (s : String) : List String → List String
  | [] => [s]
  | x :: xs => if strLe s x then s :: x :: xs else x :: sortedInsert s xs

/-- Insertion sort by `strLe`. -/
def insertionSort : List String → List String
  | [] => []
  | x :: xs => sortedInsert x (insertionSort xs)

/-- Model of `np.unique(values)` for a list of strings: the sorted list
of distinct values. -/
def uniquesSorted (values : List String) : List String :=
  (insertionSort values).dedup

/-- Model of `col = dict(zip(uniques, itertools.cycle(colors)))`
followed by the lookup `col[value]`: colors are identified by their
index in the palette list, and the palette is cycled over the sorted
unique values.  The default `Dark2` palette of `_ax_color_bar` has 8
colors, modelled as the palette `List.range 8`. -/
def colorOf (values : List String) (colors : List Nat) (v : String) : Nat :=
  colors.getD ((uniquesSorted values).indexOf v % colors.length) 0

/-- One rectangle drawn by `_ax_color_bar` via
`mpatches.Rectangle(pos, w, h, facecolor=col[value], label=value)`:
lower-left corner `(x, y)`, width `w` (size along the x axis), height
`h` (size along the y axis), face color and label. -/
structure Rect where
  x : ℚ
  y : ℚ
  w : ℚ
  h : ℚ
  color : Nat
  label : String
  deriving DecidableEq, Repr

/-- Geometry of the rectangle `_ax_color_bar` builds for the
transition record `(i, value)` whose run starts at the previous
boundary `prev`: along the x axis (`axis = 0`) the position is
`(prev - offset, position)` with sizes `(i - prev, width)`, along the
y axis it is `(position, prev - offset)` with sizes
`(width, i - prev)`, where `offset = 0.5`. -/
def rectOfRecord (col : String → Nat) (width position : ℚ) (axis : Nat)
    (prev i : Nat) (value : String) : Rect :=
  if axis == 0 then
    { x := (prev : ℚ) - 1/2, y := position,
      w := (i : ℚ) - (prev : ℚ), h := width,
      color := col value, label := value }
  else
    { x := position, y := (prev : ℚ) - 1/2,
      w := width, h := (i : ℚ) - (prev : ℚ),
      color := col value, label := value }

/-- The loop `for i, value in _transition_index(values): ...` of
`_ax_color_bar`: `prev` is the previous boundary (starting at 0); a
record whose value is the empty string draws nothing, every other
record draws exactly one rectangle.  (The optional centered text
annotation drawn when `label is True` adds no rectangle and is not
modelled.) -/
def axColorBarLoop (col : String → Nat) (width position : ℚ) (axis : Nat) :
    Nat → List (Nat × String) → List Rect
  | _, [] => []
  | prev, (i, value) :: rest =>
      (if value ≠ "" then [rectOfRecord col width position axis prev i value] else [])
        ++ axColorBarLoop col width position axis i rest

/-- Function `_ax_color_bar(axes, values, width, position, colors, axis)`,
modelled as the list of rectangles it adds to the axes.  Iterating
`_transition_index(values)` on an empty `values` raises, hence `none`
there. -/
def ax_color_bar (values : List String) (width position : ℚ)
    (colors : List Nat) (axis : Nat) : Option (List Rect) :=
  match transitionIndexStr values with
  | none => none
  | some recs =>
      some (axColorBarLoop (colorOf values colors) width position axis 0 recs)

/-! ## Axis decoration in `heatmap` -/

/-- A metadata table (`exp.sample_metadata` / `exp.feature_metadata`)
restricted to what `heatmap` uses: named columns of values.  Indexing
a missing column raises `KeyError` in pandas, modelled by `none`. -/
def lookupField (md : List (String × List PyVal)) (f : String) :
    Option (List PyVal) :=
  (md.find? (fun p => p.1 == f)).map (·.2)

/-- Python slice `s[-m:]` for a nonnegative `m`: the last `m`
characters, except that `s[-0:]` is the whole string. -/
def pySliceLast (s : String) (m : Nat) : String :=
  if m == 0 then s else s.takeRight m

/-- Truncation of an x tick label in `heatmap`:
`mid = int(xticklabel_len / 2)` and the label becomes
`i[:mid] ++ ".." ++ i[-mid:]` when `len(i) > xticklabel_len`. -/
def truncMidLabel (xticklabel_len : Nat) (s : String) : String :=
  if s.length > xticklabel_len then
    s.take (xticklabel_len / 2) ++ ".." ++ pySliceLast s (xticklabel_len / 2)
  else s

/-- Outcome of the sample-axis decoration in `heatmap`: either the
x axis is hidden (`sample_field is None`), or vertical boundary lines
are drawn at `vlines`, ticks placed at `ticks` and labelled with
`labels`. -/
inductive XAxisSetup where
  | hidden
  | rendered (vlines : List ℚ) (ticks : List ℚ) (labels : List String)
  deriving DecidableEq, Repr

/-- The sample-axis part of `heatmap` (the `if sample_field is not
None:` block): looks up the field (raising `ValueError` naming it when
absent), runs `_transition_index`, prepends 0 to the end indices,
shifts by -0.5, draws the interior positions as vertical lines, places
ticks at `x_pos[:-1] + (x_pos[1:] - x_pos[:-1]) / 2` and labels them
with the stringified, optionally middle-truncated run values. -/
def heatmapXAxis (sample_md : List (String × List PyVal))
    (sample_field : Option String) (xticklabel_len : Option Nat) :
    Except String XAxisSetup :=
  match sample_field with
  | none => .ok .hidden
  | some f =>
    match lookupField sample_md f with
    | none => .error ("Sample field " ++ f ++ " not in sample metadata")
    | some colvals =>
      match transitionIndexPy colvals with
      | none => .error "RuntimeError: generator raised StopIteration"
      | some recs =>
        let x_pos : List ℚ :=
          ((0 : Nat) :: recs.map Prod.fst).map (fun n : Nat => (n : ℚ) - 1/2)
        let vlines := (x_pos.drop 1).dropLast
        let ticks :=
          (x_pos.dropLast.zip (x_pos.drop 1)).map (fun p => p.1 + (p.2 - p.1) / 2)
        let labels0 := recs.map (fun r => pyToString r.2)
        let labels :=
          match xticklabel_len with
          | none => labels0
          | some L => labels0.map (truncMidLabel L)
        .ok (.rendered vlines ticks labels)

/-- The y tick labels `heatmap` computes from a feature-metadata
column: stringify, then keep the last `yticklabel_len` characters of
each label longer than that. -/
def yLabelList (ffield : List PyVal) (yticklabel_len : Option Nat) :
    List String :=
  let labels0 := ffield.map pyToString
  match yticklabel_len with
  | none => labels0
  | some L => labels0.map (fun s => if s.length > L then pySliceLast s L else s)

/-- Outcome of the feature-axis decoration in `heatmap`: axis hidden
(`feature_field is None`), explicit ticks (one per feature, when
`yticklabels_max is None`), no ticks (`yticklabels_max == 0`), a
dynamic locator/formatter capped at `cap` simultaneously visible
labels (`yticklabels_max > 0`), or the untouched default locator
(negative `yticklabels_max` matches no branch). -/
inductive YAxisSetup where
  | hidden
  | explicitTicks (ticks : List Nat) (labels : List String)
  | noTicks
  | dynamicTicks (cap : Nat) (labels : List String)
  | defaultLocator (labels : List String)
  deriving DecidableEq, Repr

/-- The feature-axis part of `heatmap` (the `if feature_field is not
None:` block); `numcols` is `exp.shape[1]`, the number of features.
The resolution of the default `feature_field is False` to
`exp.heatmap_feature_field` happens before this block and is left to
the caller. -/
def heatmapYAxis (feature_md : List (String × List PyVal))
    (feature_field : Option String) (yticklabels_max : Option Int)
    (yticklabel_len : Option Nat) (numcols : Nat) :
    Except String YAxisSetup :=
  match feature_field with
  | none => .ok .hidden
  | some f =>
    match lookupField feature_md f with
    | none => .error ("Feature field " ++ f ++ " not in feature metadata")
    | some ffield =>
      let yticklabels := yLabelList ffield yticklabel_len
      match yticklabels_max with
      | none => .ok (.explicitTicks (List.range numcols) yticklabels)
      | some m =>
          if m = 0 then .ok .noTicks
          else if 0 < m then .ok (.dynamicTicks m.toNat yticklabels)
          else .ok (.defaultLocator yticklabels)

/-! ## The coordinate-readout callback `format_coord` -/

/-- Python `int(q)` on a real number: truncation toward zero. -/
def pyIntTrunc (q : ℚ) : Int := if 0 ≤ q then ⌊q⌋ else ⌈q⌉

/-- What the hover string reports: either the coordinates together
with the matrix value `z` at the selected cell, or the coordinates
alone. -/
inductive CoordReadout where
  | withZ (x y z : ℚ)
  | coordsOnly (x y : ℚ)
  deriving DecidableEq, Repr

/-- Entry `data[r][c]` of the raw abundance matrix (rows are samples,
columns are features). -/
def matGet (data : List (List ℚ)) (r c : Nat) : ℚ :=
  (data.getD r []).getD c 0

/-- The callback `format_coord(x, y)` installed by `heatmap`:
`row = int(x + 0.5)`, `col = int(y + 0.5)`, and the raw value
`exp.data[row, col]` is reported exactly when
`0 <= col < numcols and 0 <= row < numrows`.  Here `numrows` is the
number of samples and `numcols` the number of features
(`numrows, numcols = exp.shape`). -/
def format_coord (data : List (List ℚ)) (numrows numcols : Nat)
    (x y : ℚ) : CoordReadout :=
  let row := pyIntTrunc (x + 1/2)
  let col := pyIntTrunc (y + 1/2)
  if 0 ≤ col ∧ col < (numcols : Int) ∧ 0 ≤ row ∧ row < (numrows : Int) then
    .withZ x y (matGet data row.toNat col.toNat)
  else
    .coordsOnly x y

/-- Spec-side readout, following the words of the specification:
rounds the fractional position to the NEAREST `(row, column)` (round
half up, `⌊q + 1/2⌋`), reports the raw matrix value there when the
rounded cell is within the matrix bounds, and only the coordinates
otherwise.  To be compared with `format_coord`. -/
def formatCoordNearest (data : List (List ℚ)) (numrows numcols : Nat)
    (x y : ℚ) : CoordReadout :=
  let row := ⌊x + 1/2⌋
  let col := ⌊y + 1/2⌋
  if 0 ≤ col ∧ col < (numcols : Int) ∧ 0 ≤ row ∧ row < (numrows : Int) then
    .withZ x y (matGet data row.toNat col.toNat)
  else
    .coordsOnly x y

/-! ## The sort-and-plot wrapper `plot_sort`

`plot_sort` promises not to mutate the caller's experiment: it calls
`exp.copy()` and sorts the copy in place.  To make that observable in
a pure embedding, experiment objects live in an explicit heap of
objects addressed by references, `exp.copy()` allocates a fresh
object, and `sort_samples(..., inplace=True)` overwrites the object
behind its reference. -/

/-- The slice of an `Experiment` object that `plot_sort` can touch:
the sample metadata table and the abundance matrix (one row per
sample). -/
structure Experiment where
  sample_metadata : List (String × List PyVal)
  data : List (List ℚ)
  deriving DecidableEq, Repr

instance : Inhabited Experiment := ⟨⟨[], []⟩⟩

/-- Stable sort of the sample positions `0, ..., n-1` by the keys
`key i`, using insertion sort on positions (equal keys keep their
relative order). -/
def sortPositions (n : Nat) (key : Nat → String) : List Nat :=
  (List.range n).foldr
    (fun i acc =>
      let rec ins (i : Nat) : List Nat → List Nat
        | [] => [i]
        | j :: js => if strLe (key i) (key j) && !(strLe (key j) (key i))
                     then i :: j :: js else j :: ins i js
      ins i acc) []

/-- Modelled from the spec: `Experiment.sort_samples` lives in
`calour/sorting.py`, which is not among the sources here.  Following
the specification, sorting is stable and reorders the samples by the
given metadata field; every metadata column and the rows of the data
matrix are permuted alike.  (A missing field would raise; the frame
theorems below do not depend on the sort itself.) -/
def sort_samples (exp : Experiment) (field : String) : Experiment :=
  let n := exp.data.length
  let keycol := (lookupField exp.sample_metadata field).getD []
  let perm := sortPositions n (fun i => pyToString (keycol.getD i .pyNone))
  { sample_metadata :=
      exp.sample_metadata.map (fun p => (p.1, perm.map (fun i => p.2.getD i .pyNone))),
    data := perm.map (fun i => exp.data.getD i []) }

/-- A heap of experiment objects; references are list positions. -/
structure Heap where
  objs : List Experiment
  deriving DecidableEq, Repr

/-- Dereference: the object behind `r`. -/
def Heap.get (h : Heap) (r : Nat) : Experiment :=
  h.objs.getD r default

/-- Model of `exp.copy()`: allocate a fresh object with the same
contents, returning the new heap and the fresh reference. -/
def copyRef (h : Heap) (r : Nat) : Heap × Nat :=
  (⟨h.objs ++ [h.get r]⟩, h.objs.length)

/-- Model of `newexp.sort_samples(cfield, inplace=True)`: overwrite
the object behind `r` with its sorted version. -/
def sortSamplesInplace (h : Heap) (r : Nat) (field : String) : Heap :=
  ⟨h.objs.set r (sort_samples (h.get r) field)⟩

/-- Function `plot_sort(exp, fields, ...)`, restricted to its flow on
the experiment objects: with `fields=None` it plots the original
object with no x label; otherwise it copies the experiment, sorts the
copy in place field after field, and plots the copy, the loop variable
`cfield` (the LAST field) becoming the x label.  With `fields == []`
the loop body never runs and the read of `cfield` after the loop
raises `NameError`.  The result pairs the heap after the call with
either the error or `(plotted reference, plot_field)`.  (The
`sample_field in kwargs` branch only decides whether `plot_field` is
forwarded to `plot` and is not modelled; `fields` is taken after the
`_to_list` coercion.) -/
def plot_sort (h : Heap) (r : Nat) (fields : Option (List String)) :
    Heap × Except String (Nat × Option String) :=
  match fields with
  | none => (h, .ok (r, none))
  | some fs =>
      let hn := copyRef h r
      let h2 := fs.foldl (fun hh cfield => sortSamplesInplace hh hn.2 cfield) hn.1
      match fs.getLast? with
      | none => (h2, .error "NameError: name cfield is not defined")
      | some cfield => (h2, .ok (hn.2, some cfield))

/-! ## Properties of the transition scanner -/

/-- The tuple comparison of `_transition_index` coincides with
equality of `PyVal`s: the type tag separates values of different
types (in particular `1` and `True`, which Python `==` identifies),
and within one type Python `==` is plain equality. -/
lemma scanEq_eq_true_iff (a b : PyVal) : scanEq a b = true ↔ a = b := by
  cases a <;> cases b <;> simp [scanEq, typeTag, pyEq]

/-- Splitting one copy off a replicate block. -/
lemma replicate_succ_append {α : Type} (n : Nat) (a : α) (l : List α) :
    List.replicate (n + 1) a ++ l = List.replicate n a ++ a :: l := by
  rw [List.replicate_succ', List.append_assoc, List.singleton_append]

/-- Unrolling `transitionAux`: expanding the records produced from
state `(item, idx + 1)` with previous boundary `p ≤ idx` yields
`idx - p` pending copies of `item` followed by `item` and the
remaining input. -/
lemma expandRuns_transitionAux {α : Type} (beq : α → α → Bool)
    (hbeq : ∀ a b, beq a b = true → a = b) :
    ∀ (xs : List α) (item : α) (idx p : Nat), p ≤ idx →
      expandRuns p (transitionAux beq item (idx + 1) xs) =
        List.replicate (idx - p) item ++ item :: xs := by
  intro xs
  induction xs with
  | nil =>
      intro item idx p hp
      simp only [transitionAux, expandRuns, List.append_nil]
      rw [show idx + 1 - p = (idx - p) + 1 by omega, List.replicate_succ']
  | cons c xs ih =>
      intro item idx p hp
      by_cases hb : beq item c = true
      · have hc : item = c := hbeq _ _ hb
        subst hc
        simp only [transitionAux, hb, if_true]
        rw [ih item (idx + 1) p (by omega),
          show idx + 1 - p = (idx - p) + 1 by omega, replicate_succ_append]
      · simp only [transitionAux, hb, if_false]
        simp only [expandRuns]
        rw [ih c (idx + 1) (idx + 1) (le_refl _),
          show idx + 1 - (idx + 1) = 0 by omega,
          show idx + 1 - p = (idx - p) + 1 by omega]
        simp only [List.replicate_zero, List.nil_append]
        rw [replicate_succ_append]

/-- **C1**: for every non-empty ordered sequence `L`, concatenating,
for each record `(end_index, value)` produced by `_transition_index`
in order, the value repeated `end_index - previous end_index` times
(previous end index starting at 0) reconstructs `L` exactly, where
element equality is `(stringified-type, value)` equality (which on the
embedded values coincides with equality of `PyVal`s, by
`scanEq_eq_true_iff`). -/
theorem transition_index_reconstructs (L : List PyVal) (h : L ≠ []) :
    ∃ recs, transitionIndexPy L = some recs ∧ expandRuns 0 recs = L := by
  match L, h with
  | x :: xs, _ =>
      refine ⟨transitionAux scanEq x 1 xs, rfl, ?_⟩
      have h0 := expandRuns_transitionAux scanEq
        (fun a b hab => (scanEq_eq_true_iff a b).1 hab) xs x 0 0 (le_refl 0)
      simpa using h0

/-- Witness for C1 on the doctest list `['a', 'a', 'b']`. -/
theorem transition_index_reconstructs_witness :
    (([.pyStr "a", .pyStr "a", .pyStr "b"] : List PyVal) ≠ []) ∧
    ∃ recs,
      transitionIndexPy [.pyStr "a", .pyStr "a", .pyStr "b"] = some recs ∧
      expandRuns 0 recs = [.pyStr "a", .pyStr "a", .pyStr "b"] :=
  ⟨by decide, transition_index_reconstructs _ (by decide)⟩

/-- **C2**: `_transition_index` merges adjacent elements into one run
only when both their stringified type and their value agree: on
`['a','a','b',1,2,None,None]` it yields exactly
`[(2,'a'),(3,'b'),(4,1),(5,2),(7,None)]` (the two adjacent `None`s
merge into one run); in general two elements of different stringified
types never compare equal for the scanner, while every element
compares equal to itself. -/
theorem transition_index_type_tagged :
    transitionIndexPy
        [.pyStr "a", .pyStr "a", .pyStr "b", .pyInt 1, .pyInt 2, .pyNone, .pyNone] =
      some [(2, .pyStr "a"), (3, .pyStr "b"), (4, .pyInt 1), (5, .pyInt 2), (7, .pyNone)] ∧
    (∀ a b : PyVal, typeTag a ≠ typeTag b → scanEq a b = false) ∧
    (∀ a : PyVal, scanEq a a = true) := by
  refine ⟨by decide, ?_, ?_⟩
  · intro a b hab
    cases a <;> cases b <;> simp_all [typeTag, scanEq, pyEq]
  · intro a
    cases a <;> simp [scanEq, pyEq]

/-- Witness for C2: the int `1` and the string `"1"` have different
type tags, so the scanner never merges them. -/
theorem transition_index_type_tagged_witness :
    typeTag (.pyInt 1) ≠ typeTag (.pyStr "1") ∧
    scanEq (.pyInt 1) (.pyStr "1") = false :=
  ⟨by decide, transition_index_type_tagged.2.1 (.pyInt 1) (.pyStr "1") (by decide)⟩

/-- **C7**: `_transition_index` fails with an error when given an
empty sequence: the initial `next(it)` raises `StopIteration`, which
surfaces as `RuntimeError` when the generator is iterated, so no
record is produced (modelled as `none`). -/
theorem transition_index_empty_errors :
    transitionIndexPy [] = none ∧ transitionIndexStr [] = none :=
  ⟨rfl, rfl⟩

/-! ## Properties of the color-bar renderer -/

/-- The color-bar loop draws exactly one rectangle per transition
record whose value is not the empty string, and none for the empty
string. -/
lemma axColorBarLoop_length (col : String → Nat) (w pos : ℚ) (axis : Nat) :
    ∀ (recs : List (Nat × String)) (prev : Nat),
      (axColorBarLoop col w pos axis prev recs).length =
        recs.countP (fun r => !(r.2 == "")) := by
  intro recs
  induction recs with
  | nil => intro prev; simp [axColorBarLoop]
  | cons r rest ih =>
      intro prev
      obtain ⟨i, v⟩ := r
      by_cases hv : v = ""
      · subst hv
        simp [axColorBarLoop, ih, List.countP_cons]
      · simp [axColorBarLoop, hv, ih, List.countP_cons]

/-- The color-bar loop, rephrased: pair each record with the previous
boundary (the preceding record's end index, `prev` for the first one)
and map the empty-string-skipping rectangle construction over the
pairs. -/
lemma axColorBarLoop_eq_filterMap (col : String → Nat) (w pos : ℚ) (axis : Nat) :
    ∀ (recs : List (Nat × String)) (prev : Nat),
      axColorBarLoop col w pos axis prev recs =
        ((prev :: (recs.map Prod.fst).dropLast).zip recs).filterMap
          (fun pr => if pr.2.2 = "" then none
                     else some (rectOfRecord col w pos axis pr.1 pr.2.1 pr.2.2)) := by
  intro recs
  induction recs with
  | nil => intro prev; simp [axColorBarLoop]
  | cons r rest ih =>
      intro prev
      obtain ⟨i, v⟩ := r
      have hstep : axColorBarLoop col w pos axis prev ((i, v) :: rest) =
          (if v ≠ "" then [rectOfRecord col w pos axis prev i v] else [])
            ++ axColorBarLoop col w pos axis i rest := rfl
      have hzip : ((prev :: (List.map Prod.fst ((i, v) :: rest)).dropLast).zip
            ((i, v) :: rest)) =
          (prev, (i, v)) :: ((i :: (List.map Prod.fst rest).dropLast).zip rest) := by
        cases rest with
        | nil => simp
        | cons r2 rest2 => simp [List.dropLast_cons₂]
      rw [hstep, hzip, List.filterMap_cons, ih i]
      by_cases hv : v = "" <;> simp [hv]

/-- **C3**: for every non-empty values sequence, `_ax_color_bar` draws
zero rectangles for every run whose value is the empty string and
exactly one rectangle for every other run; that rectangle spans from
(previous run boundary - 0.5) with length (end_index - previous
boundary) along the chosen axis — so it ends at end_index - 0.5 — has
thickness `width`, and is placed at offset `position`. -/
theorem ax_color_bar_one_rect_per_run (values : List String)
    (width position : ℚ) (colors : List Nat) (axis : Nat)
    (h : values ≠ []) :
    ∃ recs rects,
      transitionIndexStr values = some recs ∧
      ax_color_bar values width position colors axis = some rects ∧
      rects = ((0 :: (recs.map Prod.fst).dropLast).zip recs).filterMap
          (fun pr => if pr.2.2 = "" then none
                     else some (rectOfRecord (colorOf values colors) width
                        position axis pr.1 pr.2.1 pr.2.2)) ∧
      rects.length = recs.countP (fun r => !(r.2 == "")) ∧
      (∀ prev i v,
        (rectOfRecord (colorOf values colors) width position 0 prev i v).x +
          (rectOfRecord (colorOf values colors) width position 0 prev i v).w =
            (i : ℚ) - 1/2 ∧
        (rectOfRecord (colorOf values colors) width position 0 prev i v).h = width ∧
        (rectOfRecord (colorOf values colors) width position 0 prev i v).y = position) ∧
      (∀ prev i v,
        (rectOfRecord (colorOf values colors) width position 1 prev i v).y +
          (rectOfRecord (colorOf values colors) width position 1 prev i v).h =
            (i : ℚ) - 1/2 ∧
        (rectOfRecord (colorOf values colors) width position 1 prev i v).w = width ∧
        (rectOfRecord (colorOf values colors) width position 1 prev i v).x = position) := by
  match values, h with
  | x :: xs, _ =>
      refine ⟨transitionAux (· == ·) x 1 xs,
        axColorBarLoop (colorOf (x :: xs) colors) width position axis 0
          (transitionAux (· == ·) x 1 xs), rfl, rfl,
        axColorBarLoop_eq_filterMap _ _ _ _ _ 0,
        axColorBarLoop_length _ _ _ _ _ 0, ?_, ?_⟩
      · intro prev i v
        refine ⟨?_, rfl, rfl⟩
        simp only [rectOfRecord]
        norm_num
        try ring
      · intro prev i v
        refine ⟨?_, rfl, rfl⟩
        simp only [rectOfRecord]
        norm_num
        try ring

/-- The scanner always yields at least one record (the final
`yield i + 1, item`). -/
lemma transitionAux_ne_nil {α : Type} (beq : α → α → Bool) :
    ∀ (xs : List α) (item : α) (idx : Nat),
      transitionAux beq item idx xs ≠ [] := by
  intro xs
  induction xs with
  | nil => intro item idx; simp [transitionAux]
  | cons c rest ih =>
      intro item idx
      by_cases hb : beq item c = true <;> simp [transitionAux, hb, ih]

/-- Witness for C3 on `['a', 'a', '', 'b']`. -/
theorem ax_color_bar_one_rect_per_run_witness :
    (["a", "a", "", "b"] ≠ ([] : List String)) ∧
    ∃ recs rects,
      transitionIndexStr ["a", "a", "", "b"] = some recs ∧
      ax_color_bar ["a", "a", "", "b"] 1 0 (List.range 8) 0 = some rects ∧
      rects = ((0 :: (recs.map Prod.fst).dropLast).zip recs).filterMap
          (fun pr => if pr.2.2 = "" then none
                     else some (rectOfRecord (colorOf ["a", "a", "", "b"] (List.range 8)) 1
                        0 0 pr.1 pr.2.1 pr.2.2)) ∧
      rects.length = recs.countP (fun r => !(r.2 == "")) ∧
      (∀ prev i v,
        (rectOfRecord (colorOf ["a", "a", "", "b"] (List.range 8)) 1 0 0 prev i v).x +
          (rectOfRecord (colorOf ["a", "a", "", "b"] (List.range 8)) 1 0 0 prev i v).w =
            (i : ℚ) - 1/2 ∧
        (rectOfRecord (colorOf ["a", "a", "", "b"] (List.range 8)) 1 0 0 prev i v).h = 1 ∧
        (rectOfRecord (colorOf ["a", "a", "", "b"] (List.range 8)) 1 0 0 prev i v).y = 0) ∧
      (∀ prev i v,
        (rectOfRecord (colorOf ["a", "a", "", "b"] (List.range 8)) 1 0 1 prev i v).y +
          (rectOfRecord (colorOf ["a", "a", "", "b"] (List.range 8)) 1 0 1 prev i v).h =
            (i : ℚ) - 1/2 ∧
        (rectOfRecord (colorOf ["a", "a", "", "b"] (List.range 8)) 1 0 1 prev i v).w = 1 ∧
        (rectOfRecord (colorOf ["a", "a", "", "b"] (List.range 8)) 1 0 1 prev i v).x = 0) :=
  ⟨by decide, ax_color_bar_one_rect_per_run ["a", "a", "", "b"] 1 0 (List.range 8) 0
    (by decide)⟩

/-! ## Properties of the sample-axis decoration -/

/-- **C4**: when `heatmap` is called with a `sample_field` present in
the sample metadata (with a non-empty column), it draws one vertical
boundary line at each run transition of that column, excluding the
first and last boundaries — so exactly (number of runs - 1) lines —
and places one x tick at the midpoint of each run, labelled with the
stringified run value, middle-truncated to `first-half..second-half`
when its length exceeds `xticklabel_len`. -/
theorem heatmap_x_axis_runs (smd : List (String × List PyVal)) (f : String)
    (L : Nat) (colvals : List PyVal)
    (hf : lookupField smd f = some colvals) (hne : colvals ≠ []) :
    ∃ recs vlines ticks labels,
      transitionIndexPy colvals = some recs ∧
      heatmapXAxis smd (some f) (some L) = .ok (.rendered vlines ticks labels) ∧
      vlines = ((recs.map Prod.fst).dropLast).map (fun n : Nat => (n : ℚ) - 1/2) ∧
      vlines.length = recs.length - 1 ∧
      ticks = ((0 :: (recs.map Prod.fst).dropLast).zip (recs.map Prod.fst)).map
          (fun pr => ((pr.1 : ℚ) + (pr.2 : ℚ)) / 2 - 1/2) ∧
      ticks.length = recs.length ∧
      labels = recs.map (fun r => truncMidLabel L (pyToString r.2)) := by
  obtain ⟨x, xs, rfl⟩ : ∃ y ys, colvals = y :: ys := by
    cases colvals with
    | nil => exact absurd rfl hne
    | cons y ys => exact ⟨y, ys, rfl⟩
  have hrne : transitionAux scanEq x 1 xs ≠ [] := transitionAux_ne_nil scanEq xs x 1
  set recs := transitionAux scanEq x 1 xs with hrecsdef
  set idxs := recs.map Prod.fst with hidxsdef
  have hidxne : idxs ≠ [] := by
    simpa [hidxsdef] using hrne
  have hidxlen : idxs.length ≠ 0 := fun h0 => hidxne (List.length_eq_zero.1 h0)
  set g : Nat → ℚ := fun n : Nat => (n : ℚ) - 1/2 with hgdef
  set x_pos : List ℚ := ((0 : Nat) :: idxs).map g with hxposdef
  have hdrop : x_pos.drop 1 = idxs.map g := by
    simp [hxposdef]
  have hdl : x_pos.dropLast = (0 :: idxs.dropLast).map g := by
    rw [hxposdef, ← List.map_dropLast, List.dropLast_cons_of_ne_nil hidxne]
  refine ⟨recs,
    (idxs.dropLast).map g,
    ((0 :: idxs.dropLast).zip idxs).map
        (fun pr => ((pr.1 : ℚ) + (pr.2 : ℚ)) / 2 - 1/2),
    recs.map (fun r => truncMidLabel L (pyToString r.2)),
    rfl, ?_, rfl, ?_, rfl, ?_, rfl⟩
  · have hx : heatmapXAxis smd (some f) (some L) =
        .ok (.rendered ((x_pos.drop 1).dropLast)
          ((x_pos.dropLast.zip (x_pos.drop 1)).map (fun p => p.1 + (p.2 - p.1) / 2))
          ((recs.map (fun r => pyToString r.2)).map (truncMidLabel L))) := by
      simp only [heatmapXAxis, hf]
      rfl
    rw [hx]
    have hV : (x_pos.drop 1).dropLast = (idxs.dropLast).map g := by
      rw [hdrop, ← List.map_dropLast]
    have hT : (x_pos.dropLast.zip (x_pos.drop 1)).map (fun p => p.1 + (p.2 - p.1) / 2) =
        ((0 :: idxs.dropLast).zip idxs).map
          (fun pr => ((pr.1 : ℚ) + (pr.2 : ℚ)) / 2 - 1/2) := by
      rw [hdrop, hdl, List.zip_map, List.map_map]
      refine List.map_congr_left ?_
      intro a _
      obtain ⟨a1, a2⟩ := a
      simp only [Function.comp, Prod.map, hgdef]
      ring
    have hL : (recs.map (fun r => pyToString r.2)).map (truncMidLabel L) =
        recs.map (fun r => truncMidLabel L (pyToString r.2)) := by
      rw [List.map_map]
      rfl
    rw [hV, hT, hL]
  · rw [List.length_map, List.length_dropLast, List.length_map]
  · rw [List.length_map, List.length_zip, List.length_cons, List.length_dropLast]
    rw [hidxsdef, List.length_map] at hidxlen ⊢
    omega

/-- Witness for C4 on the column `['a', 'a', 'b']` of field `grp`. -/
theorem heatmap_x_axis_runs_witness :
    (lookupField [("grp", [.pyStr "a", .pyStr "a", .pyStr "b"])] "grp" =
        some [.pyStr "a", .pyStr "a", .pyStr "b"]) ∧
    (([.pyStr "a", .pyStr "a", .pyStr "b"] : List PyVal) ≠ []) ∧
    ∃ recs vlines ticks labels,
      transitionIndexPy [.pyStr "a", .pyStr "a", .pyStr "b"] = some recs ∧
      heatmapXAxis [("grp", [.pyStr "a", .pyStr "a", .pyStr "b"])] (some "grp")
          (some 10) = .ok (.rendered vlines ticks labels) ∧
      vlines = ((recs.map Prod.fst).dropLast).map (fun n : Nat => (n : ℚ) - 1/2) ∧
      vlines.length = recs.length - 1 ∧
      ticks = ((0 :: (recs.map Prod.fst).dropLast).zip (recs.map Prod.fst)).map
          (fun pr => ((pr.1 : ℚ) + (pr.2 : ℚ)) / 2 - 1/2) ∧
      ticks.length = recs.length ∧
      labels = recs.map (fun r => truncMidLabel 10 (pyToString r.2)) :=
  ⟨by decide, by decide,
    heatmap_x_axis_runs [("grp", [.pyStr "a", .pyStr "a", .pyStr "b"])] "grp" 10
      [.pyStr "a", .pyStr "a", .pyStr "b"] (by decide) (by decide)⟩

/-! ## Properties of the feature-axis decoration -/

/-- **C5**: in `heatmap` with a valid `feature_field` (a column with
one entry per feature): if `yticklabels_max` is `None`, exactly one y
tick is set per feature (`range(numcols)`); if it is `0`, zero y ticks
are set; if it is a positive integer `k`, a dynamic locator/formatter
capped at `k` simultaneously visible labels is installed (the locator
itself is matplotlib's `MaxNLocator(k)` and is modelled by its cap). -/
theorem heatmap_y_axis_tick_caps (fmd : List (String × List PyVal)) (f : String)
    (ffield : List PyVal) (ylen : Option Nat) (numcols : Nat)
    (hf : lookupField fmd f = some ffield) (hcols : ffield.length = numcols) :
    (heatmapYAxis fmd (some f) none ylen numcols =
        .ok (.explicitTicks (List.range numcols) (yLabelList ffield ylen)) ∧
      (List.range numcols).length = ffield.length) ∧
    heatmapYAxis fmd (some f) (some 0) ylen numcols = .ok .noTicks ∧
    (∀ k : Int, 0 < k →
      heatmapYAxis fmd (some f) (some k) ylen numcols =
        .ok (.dynamicTicks k.toNat (yLabelList ffield ylen))) := by
  refine ⟨⟨?_, ?_⟩, ?_, ?_⟩
  · simp [heatmapYAxis, hf]
  · simp [hcols]
  · simp [heatmapYAxis, hf]
  · intro k hk
    simp [heatmapYAxis, hf, hk, hk.ne']

/-- Witness for C5 on a two-feature taxonomy column. -/
theorem heatmap_y_axis_tick_caps_witness :
    (lookupField [("tax", [.pyStr "x", .pyStr "y"])] "tax" =
        some [.pyStr "x", .pyStr "y"]) ∧
    (([.pyStr "x", .pyStr "y"] : List PyVal).length = 2) ∧
    ((heatmapYAxis [("tax", [.pyStr "x", .pyStr "y"])] (some "tax") none (some 15) 2 =
        .ok (.explicitTicks (List.range 2)
          (yLabelList [.pyStr "x", .pyStr "y"] (some 15))) ∧
      (List.range 2).length = ([.pyStr "x", .pyStr "y"] : List PyVal).length) ∧
    heatmapYAxis [("tax", [.pyStr "x", .pyStr "y"])] (some "tax") (some 0) (some 15) 2 =
        .ok .noTicks ∧
    (∀ k : Int, 0 < k →
      heatmapYAxis [("tax", [.pyStr "x", .pyStr "y"])] (some "tax") (some k) (some 15) 2 =
        .ok (.dynamicTicks k.toNat (yLabelList [.pyStr "x", .pyStr "y"] (some 15))))) :=
  ⟨by decide, by decide,
    heatmap_y_axis_tick_caps [("tax", [.pyStr "x", .pyStr "y"])] "tax"
      [.pyStr "x", .pyStr "y"] (some 15) 2 (by decide) (by decide)⟩

/-- **C6**: calling `heatmap` with a `sample_field` (respectively
`feature_field`) absent from the sample (respectively feature)
metadata table fails with a `ValueError` whose message names the
missing field, and commits no rendered axis setup — no boundary
gridlines, no tick labels — for that axis. -/
theorem heatmap_missing_field_errors (smd fmd : List (String × List PyVal))
    (f g : String) (xlen ylen : Option Nat) (ymax : Option Int) (numcols : Nat)
    (hf : lookupField smd f = none) (hg : lookupField fmd g = none) :
    heatmapXAxis smd (some f) xlen =
        .error ("Sample field " ++ f ++ " not in sample metadata") ∧
    heatmapYAxis fmd (some g) ymax ylen numcols =
        .error ("Feature field " ++ g ++ " not in feature metadata") ∧
    (∀ v t l, heatmapXAxis smd (some f) xlen ≠ .ok (.rendered v t l)) ∧
    (∀ s, heatmapYAxis fmd (some g) ymax ylen numcols ≠ .ok s) := by
  refine ⟨?_, ?_, ?_, ?_⟩
  · simp [heatmapXAxis, hf]
  · simp [heatmapYAxis, hg]
  · intro v t l
    simp [heatmapXAxis, hf]
  · intro s
    simp [heatmapYAxis, hg]

/-- Witness for C6: the field `grp` is absent from an empty metadata
table. -/
theorem heatmap_missing_field_errors_witness :
    (lookupField [] "grp" = none) ∧
    heatmapXAxis [] (some "grp") (some 10) =
        .error ("Sample field " ++ "grp" ++ " not in sample metadata") ∧
    heatmapYAxis [] (some "grp") (some 100) (some 15) 3 =
        .error ("Feature field " ++ "grp" ++ " not in feature metadata") ∧
    (∀ v t l, heatmapXAxis [] (some "grp") (some 10) ≠ .ok (.rendered v t l)) ∧
    (∀ s, heatmapYAxis [] (some "grp") (some 100) (some 15) 3 ≠ .ok s) :=
  ⟨rfl, heatmap_missing_field_errors [] [] "grp" "grp" (some 10) (some 15)
    (some 100) 3 rfl rfl⟩

/-! ## Properties of the coordinate readout -/

/-- Counterexample to C9 as stated: at the fractional position
`(x, y) = (-0.7, 0)` on a 1x1 matrix `[[5]]`, the nearest cell is
`(-1, 0)`, which is out of bounds, so a nearest-rounding readout
reports only the coordinates; the installed callback instead truncates
`int(-0.7 + 0.5) = int(-0.2) = 0` toward zero and reports the value
`5` of cell `(0, 0)`. -/
theorem format_coord_not_nearest :
    format_coord [[5]] 1 1 (-(7 : ℚ)/10) 0 = .withZ (-(7 : ℚ)/10) 0 5 ∧
    formatCoordNearest [[5]] 1 1 (-(7 : ℚ)/10) 0 = .coordsOnly (-(7 : ℚ)/10) 0 := by
  have hrow : pyIntTrunc (-(7 : ℚ)/10 + 1/2) = 0 := by
    rw [pyIntTrunc, if_neg (by norm_num)]
    norm_num
  have hcol : pyIntTrunc ((0 : ℚ) + 1/2) = 0 := by
    rw [pyIntTrunc, if_pos (by norm_num)]
    norm_num
  have hrowN : (⌊-(7 : ℚ)/10 + 1/2⌋ : Int) = -1 := by norm_num
  have hcolN : (⌊(0 : ℚ) + 1/2⌋ : Int) = 0 := by norm_num
  constructor
  · simp only [format_coord]
    rw [hrow, hcol]
    norm_num [matGet]
  · simp only [formatCoordNearest]
    rw [hrowN, hcolN]
    norm_num

/-- **C9 (amended)**: the coordinate-readout callback computes
`row = int(x + 0.5)` and `col = int(y + 0.5)` with Python `int`
truncation toward zero; whenever `x ≥ -0.5` and `y ≥ -0.5` this
coincides with rounding to the nearest `(row, column)` (round half
up), and the callback then reports x, y and the raw matrix value at
that cell when it is within bounds and only x and y otherwise.  (For a
coordinate in `(-1, -0.5)` truncation instead selects cell 0 although
the nearest cell `-1` is out of bounds.) -/
theorem format_coord_trunc_agrees_nearest (data : List (List ℚ))
    (numrows numcols : Nat) (x y : ℚ)
    (hx : -(1/2) ≤ x) (hy : -(1/2) ≤ y) :
    format_coord data numrows numcols x y =
      formatCoordNearest data numrows numcols x y := by
  have hx0 : (0 : ℚ) ≤ x + 1/2 := by linarith
  have hy0 : (0 : ℚ) ≤ y + 1/2 := by linarith
  simp only [format_coord, formatCoordNearest, pyIntTrunc, hx0, hy0, if_true]

/-- Witness for the amended C9 at the origin of a 1x1 matrix. -/
theorem format_coord_trunc_agrees_nearest_witness :
    (-(1/2 : ℚ) ≤ 0) ∧
    format_coord [[3]] 1 1 0 0 = formatCoordNearest [[3]] 1 1 0 0 :=
  ⟨neg_nonpos.mpr one_half_pos.le,
    format_coord_trunc_agrees_nearest [[3]] 1 1 0 0
      (neg_nonpos.mpr one_half_pos.le) (neg_nonpos.mpr one_half_pos.le)⟩

/-! ## Properties of the sort-and-plot wrapper -/

/-- Copying leaves the original object intact. -/
lemma copyRef_get (h : Heap) (r : Nat) (hr : r < h.objs.length) :
    (copyRef h r).1.get r = h.get r := by
  simp only [copyRef, Heap.get]
  exact List.getD_append _ _ _ _ hr

/-- An in-place sort of the object behind `j` leaves every other
object intact. -/
lemma sortSamplesInplace_get_ne (h : Heap) (j r : Nat) (fld : String)
    (hne : j ≠ r) :
    (sortSamplesInplace h j fld).get r = h.get r := by
  simp only [sortSamplesInplace, Heap.get]
  rw [List.getD_eq_getElem?_getD, List.getElem?_set_ne hne,
    ← List.getD_eq_getElem?_getD]

/-- Folding in-place sorts over the object behind `j` leaves every
other object intact. -/
lemma foldl_sortSamplesInplace_get_ne (fs : List String) :
    ∀ (h : Heap) (j r : Nat), j ≠ r →
      (fs.foldl (fun hh c => sortSamplesInplace hh j c) h).get r = h.get r := by
  induction fs with
  | nil => intro h j r _; rfl
  | cons c cs ih =>
      intro h j r hne
      rw [List.foldl_cons, ih _ _ _ hne, sortSamplesInplace_get_ne _ _ _ _ hne]

/-- **C8**: for every call to `plot_sort`, the caller's original data
object is unchanged after the call: when sort fields are given, the
sorting is applied field after field to a fresh copy obtained via
`exp.copy()`, and the original object — its sample ordering and
metadata — is identical before and after the call (also when the call
fails with `fields == []`). -/
theorem plot_sort_never_mutates (h : Heap) (r : Nat)
    (fields : Option (List String)) (hr : r < h.objs.length) :
    ((plot_sort h r fields).1).get r = h.get r := by
  match fields with
  | none => rfl
  | some fs =>
      have hne : (copyRef h r).2 ≠ r := by
        simp only [copyRef]
        omega
      cases hlast : fs.getLast? with
      | none =>
          simp only [plot_sort, hlast]
          rw [foldl_sortSamplesInplace_get_ne fs _ _ _ hne, copyRef_get h r hr]
      | some c =>
          simp only [plot_sort, hlast]
          rw [foldl_sortSamplesInplace_get_ne fs _ _ _ hne, copyRef_get h r hr]

/-- Witness for C8: a one-object heap, sorted by the field `f`. -/
theorem plot_sort_never_mutates_witness :
    (0 < (Heap.mk [⟨[("f", [.pyStr "b", .pyStr "a"])], [[1], [2]]⟩]).objs.length) ∧
    ((plot_sort (Heap.mk [⟨[("f", [.pyStr "b", .pyStr "a"])], [[1], [2]]⟩]) 0
        (some ["f"])).1).get 0 =
      (Heap.mk [⟨[("f", [.pyStr "b", .pyStr "a"])], [[1], [2]]⟩]).get 0 :=
  ⟨by decide,
    plot_sort_never_mutates (Heap.mk [⟨[("f", [.pyStr "b", .pyStr "a"])], [[1], [2]]⟩])
      0 (some ["f"]) (by decide)⟩

/-- **C10**: for the input `fields = []` (an explicit empty list,
which is not `None`), `plot_sort` fails with an unbound-variable
`NameError`: the sort loop body never runs, yet the loop variable
`cfield` is read afterwards to set the x-axis label, so the call
raises before any plot is produced. -/
theorem plot_sort_empty_fields_name_error (h : Heap) (r : Nat) :
    (plot_sort h r (some [])).2 =
      .error "NameError: name cfield is not defined" := rfl

end Calour
